import Mathlib

/-!
Verification of the incremental-synchronization and caching engine of the
WaniKani leech-deck tool.  The TypeScript source (`src/main.ts`, with the
near-duplicate draft in `src/unnamed/part_000`) is shallowly embedded below:
JavaScript values exchanged with `JSON.stringify` become the `JValue`
inductive, the global `cache` object plus its on-disk mirror become
`CacheState`, network calls become explicit oracles (`Server`) recorded in a
request trace, and every `async` function becomes a state-passing Lean
function that threads `CacheState` and accumulates the trace, returning
`Except Unit` to model promise rejection.
-/

/-- A JavaScript/JSON value as manipulated by the program.  `undefined` models the
JavaScript value `undefined`, which `JSON.stringify` omits from objects.
Object fields are kept in property order (the program only creates objects
whose keys are either plain strings in insertion order or numeric strings,
which JavaScript keeps in ascending numeric order; `jsObjSetField` below
maintains that order). Numbers are modelled as integers: the program only
stores ids, counts and SRS stages, all integral. -/
inductive JValue where
  | undefined : JValue
  | null : JValue
  | bool : Bool → JValue
  | num : Int → JValue
  | str : String → JValue
  | arr : List JValue → JValue
  | obj : List (String × JValue) → JValue

/-- Escaping performed by `JSON.stringify` on the characters that can occur in
the program's strings (quotes and backslashes; timestamps, urls and ids
contain no control characters). -/
def escapeChars : List Char → List Char
  | [] => []
  | c :: cs =>
    if c = '"' then '\\' :: '"' :: escapeChars cs
    else if c = '\\' then '\\' :: '\\' :: escapeChars cs
    else c :: escapeChars cs

/-- String form of `escapeChars`. -/
def escapeJson (s : String) : String := ⟨escapeChars s.data⟩

mutual

/-- `JSON.stringify`.  Returns `none` exactly when JavaScript's
`JSON.stringify` returns the value `undefined` (top-level `undefined`). -/
def stringifyVal : JValue → Option String
  | .undefined => none
  | .null => some "null"
  | .bool b => some (if b then "true" else "false")
  | .num n => some (toString n)
  | .str s => some ("\"" ++ escapeJson s ++ "\"")
  | .arr xs => some ("[" ++ String.intercalate "," (stringifyArr xs) ++ "]")
  | .obj fs => some ("\x7b" ++ String.intercalate "," (stringifyObj fs) ++ "\x7d")

/-- Array elements: `JSON.stringify` renders an `undefined` element as `null`. -/
def stringifyArr : List JValue → List String
  | [] => []
  | x :: xs => (stringifyVal x).getD "null" :: stringifyArr xs

/-- Object fields: fields whose value is `undefined` are omitted. -/
def stringifyObj : List (String × JValue) → List String
  | [] => []
  | (k, v) :: fs =>
    match stringifyVal v with
    | none => stringifyObj fs
    | some sv => ("\"" ++ escapeJson k ++ "\":" ++ sv) :: stringifyObj fs

end

/-- The serialization of the empty object, `JSON.stringify({})`. -/
def emptyObjJson : String := "\x7b\x7d"

/-- JavaScript truthiness. -/
def jsTruthy : JValue → Bool
  | .undefined => false
  | .null => false
  | .bool b => b
  | .num n => n != 0
  | .str s => !s.isEmpty
  | .arr _ => true
  | .obj _ => true

/-- JavaScript loose equality with `undefined` (`x != undefined` is false
exactly for `undefined` and `null`), used by `getOrInitializeCache`. -/
def jsLooseUndef : JValue → Bool
  | .undefined => true
  | .null => true
  | _ => false

/-- `v || {}`, as used by `setCache` on the previous cache entry. -/
def jsOrEmpty : Option JValue → JValue
  | some v => if jsTruthy v then v else .obj []
  | none => .obj []

/-- The numeric value of a decimal digit character. -/
def charDigit? (c : Char) : Option Nat :=
  if c.isDigit then some (c.toNat - '0'.toNat) else none

/-- Parse a string of decimal digits (structural recursion over the
character list, so that concrete instances reduce). -/
def strToNat? (s : String) : Option Nat :=
  match s.data.mapM charDigit? with
  | some ds => if ds.isEmpty then none else some (ds.foldl (fun a d => a * 10 + d) 0)
  | none => none

/-- Whether a property key is an array-index-like key (canonical numeric
string); JavaScript orders such keys numerically before all other keys. -/
def isIndexKey (k : String) : Bool :=
  match strToNat? k with
  | some n => toString n == k
  | none => false

/-- Numeric value of an index-like key (0 for others; only used to order
index-like keys among themselves). -/
def indexKeyVal (k : String) : Nat := (strToNat? k).getD 0

/-- Insert a fresh index-like key at its numeric position among the leading
index-like keys, mirroring JavaScript property order for the merged
collections (whose keys are all numeric strings). -/
def insertIndexKey : List (String × JValue) → String → JValue → List (String × JValue)
  | [], k, v => [(k, v)]
  | (k', v') :: rest, k, v =>
    if isIndexKey k' && decide (indexKeyVal k' < indexKeyVal k) then
      (k', v') :: insertIndexKey rest k v
    else
      (k, v) :: (k', v') :: rest

/-- JavaScript property assignment `o[k] = v` on an object's field list:
an existing key keeps its position; a fresh index-like key is placed in
numeric order; any other fresh key is appended (insertion order). -/
def jsObjSetField (fields : List (String × JValue)) (k : String) (v : JValue) :
    List (String × JValue) :=
  if fields.any (fun f => f.1 == k) then
    fields.map (fun f => if f.1 == k then (k, v) else f)
  else if isIndexKey k then
    insertIndexKey fields k v
  else
    fields ++ [(k, v)]

/-- Property assignment on a `JValue` (all values assigned to by the program
are objects; assignment on a non-object is a no-op here, unreachable in the
embedded code paths). -/
def jsSet (o : JValue) (k : String) (v : JValue) : JValue :=
  match o with
  | .obj fields => .obj (jsObjSetField fields k v)
  | _ => o

/-- Property read `o[k]` / `o.k` (missing property reads as `undefined`). -/
def jsGet (o : JValue) (k : String) : JValue :=
  match o with
  | .obj fields => ((fields.find? (fun f => f.1 == k)).map (fun f => f.2)).getD .undefined
  | _ => .undefined

/-- `Object.prototype.hasOwnProperty`. -/
def jsHas (o : JValue) (k : String) : Bool :=
  match o with
  | .obj fields => fields.any (fun f => f.1 == k)
  | _ => false

/-- `Object.keys`. -/
def jsKeys : JValue → List String
  | .obj fields => fields.map (fun f => f.1)
  | _ => []

/-- `Object.values`. -/
def jsValues : JValue → List JValue
  | .obj fields => fields.map (fun f => f.2)
  | _ => []

/-- `parseInt` as applied by the program to its own (decimal numeric string)
cache keys. -/
def parseNat (k : String) : Nat := (strToNat? k).getD 0

/-- The in-memory `cache` object, its durable one-file-per-key mirror under
`cache/` (each file identified by its key, holding the serialized value,
represented here by the parsed value), and the ordered log of durable
`fs.promises.writeFile` calls performed so far (key and written content). -/
structure CacheState where
  mem : List (String × JValue)
  disk : List (String × JValue)
  writes : List (String × String)

/-- Assoc-list upsert used for the durable file map (overwriting a file keeps
its directory position; a new file is appended). -/
def upsert (l : List (String × JValue)) (k : String) (v : JValue) :
    List (String × JValue) :=
  if l.any (fun f => f.1 == k) then
    l.map (fun f => if f.1 == k then (k, v) else f)
  else l ++ [(k, v)]

/-- Read of `cache[key]` (absent reads as `undefined`, here `none`). -/
def lookupMem (s : CacheState) (k : String) : Option JValue :=
  ((s.mem.find? (fun f => f.1 == k)).map (fun f => f.2))

/-- `setCache` (src/main.ts lines 27-37): serialize the previous entry (or
`{}` when absent/falsy) and the new value; if the serializations differ,
update the in-memory view and write the file, else do nothing. -/
def setCache (key : String) (value : JValue) (s : CacheState) : CacheState :=
  let oldJSON := stringifyVal (jsOrEmpty (lookupMem s key))
  let newJSON := stringifyVal value
  if oldJSON ≠ newJSON then
    ⟨jsObjSetField s.mem key value, upsert s.disk key value,
      s.writes ++ [(key, newJSON.getD "undefined")]⟩
  else s

/-- `loadCache` (src/main.ts lines 15-25): read every `cache/&lt;key&gt;.json` file
into the in-memory object. -/
def loadCache (s : CacheState) : CacheState := ⟨s.disk, s.disk, s.writes⟩

/-- An outbound HTTP GET issued by `getWaniKani`: path relative to the base
URL, the axios `params` object (in insertion order), and the optional
`If-Modified-Since` header value. -/
structure Request where
  path : String
  params : List (String × JValue)
  ifModifiedSince : Option JValue

/-- An initializer result for `getOrInitializeCache`: the produced value (or
a rejection), the state after the initializer's own effects, and the
requests it issued. -/
abbrev InitResult := Except Unit JValue × CacheState × List Request

/-- Run the initializer and persist its result (the tail of
`getOrInitializeCache` after a cache miss). -/
def giRun (key : String) (init : CacheState → InitResult) (s : CacheState) :
    InitResult :=
  match init s with
  | (.error e, s', tr) => (.error e, s', tr)
  | (.ok v, s', tr) => (.ok v, setCache key v s', tr)

/-- `getOrInitializeCache` (src/main.ts lines 39-48): return the cached value
when present (the check is JavaScript's loose `!= undefined`, so a stored
`null` also counts as absent); otherwise run the initializer, `setCache` the
result and return it. -/
def getOrInitializeCache (key : String) (init : CacheState → InitResult)
    (s : CacheState) : InitResult :=
  match lookupMem s key with
  | some v => if jsLooseUndef v then giRun key init s else (.ok v, s, [])
  | none => giRun key init s

/-- Initializer of the form `() => Promise.resolve(v)`. -/
def pureInit (v : JValue) : CacheState → InitResult :=
  fun s => (.ok v, s, [])

/-- A WaniKani API resource envelope (src/main.ts lines 55-61). -/
structure Resource (T : Type) where
  id : Nat
  object : String
  url : String
  data_updated_at : String
  data : T

/-- The `pages` block of a collection response. -/
structure Pages where
  next_url : Option String
  previous_url : Option String
  per_page : Nat

/-- A WaniKani API collection response (src/main.ts lines 63-74). -/
structure Collection (T : Type) where
  object : String
  url : String
  pages : Pages
  total_count : Nat
  data_updated_at : String
  data : List (Resource T)

/-- An assignment record (src/main.ts lines 143-146). -/
structure Assignment where
  srs_stage : Nat
  subject_id : Nat

/-- An assignment record as declared in the draft `src/unnamed/part_000`
(lines 156-160), which additionally carries the subject type. -/
structure AssignmentV0 where
  srs_stage : Nat
  subject_id : Nat
  subject_type : String

/-- A review-statistics record (src/main.ts lines 127-141). -/
structure ReviewStatistics where
  created_at : String
  hidden : Bool
  meaning_correct : Nat
  meaning_current_streak : Nat
  meaning_incorrect : Nat
  meaning_max_streak : Nat
  percentage_correct : Nat
  reading_correct : Nat
  reading_current_streak : Nat
  reading_incorrect : Nat
  reading_max_streak : Nat
  subject_id : Nat
  subject_type : String

/-- JSON encoding of an assignment payload, in field declaration order. -/
def encodeAssignment (a : Assignment) : JValue :=
  .obj [("srs_stage", .num a.srs_stage), ("subject_id", .num a.subject_id)]

/-- JSON encoding of the draft's assignment payload. -/
def encodeAssignmentV0 (a : AssignmentV0) : JValue :=
  .obj [("srs_stage", .num a.srs_stage), ("subject_id", .num a.subject_id),
        ("subject_type", .str a.subject_type)]

/-- JSON encoding of a review-statistics payload, in field declaration order. -/
def encodeReviewStatistics (r : ReviewStatistics) : JValue :=
  .obj [("created_at", .str r.created_at), ("hidden", .bool r.hidden),
        ("meaning_correct", .num r.meaning_correct),
        ("meaning_current_streak", .num r.meaning_current_streak),
        ("meaning_incorrect", .num r.meaning_incorrect),
        ("meaning_max_streak", .num r.meaning_max_streak),
        ("percentage_correct", .num r.percentage_correct),
        ("reading_correct", .num r.reading_correct),
        ("reading_current_streak", .num r.reading_current_streak),
        ("reading_incorrect", .num r.reading_incorrect),
        ("reading_max_streak", .num r.reading_max_streak),
        ("subject_id", .num r.subject_id),
        ("subject_type", .str r.subject_type)]

/-- JSON encoding of a resource envelope around an encoded payload. -/
def encodeResource {T : Type} (enc : T → JValue) (r : Resource T) : JValue :=
  .obj [("id", .num r.id), ("object", .str r.object), ("url", .str r.url),
        ("data_updated_at", .str r.data_updated_at), ("data", enc r.data)]

/-- The remote API as response oracles for the endpoints the program calls.
A `getWaniKani` call either rejects (network / non-2xx failure, `.error`),
resolves `null` on HTTP 304 (`.ok none`), or resolves the parsed body
(`.ok (some _)`).  Subject responses are kept as raw JSON values because the
program caches them verbatim. -/
structure Server where
  assignments : Request → Except Unit (Option (Collection Assignment))
  assignmentsV0 : Request → Except Unit (Option (Collection AssignmentV0))
  reviewStats : Request → Except Unit (Option (Collection ReviewStatistics))
  subjects : Request → Except Unit (Option JValue)

/-- The fixed API base URL. -/
def WaniKaniURL : String := "https://api.wanikani.com/v2/"

/-- Drop `pat` as a prefix of `s`, if it is one. -/
def dropPrefixChars? : List Char → List Char → Option (List Char)
  | [], s => some s
  | _ :: _, [] => none
  | p :: ps, c :: cs => if c = p then dropPrefixChars? ps cs else none

/-- Replace the first occurrence of `pat` (non-empty here: the base URL). -/
def replaceFirstChars (pat rep : List Char) : List Char → List Char
  | [] => []
  | c :: cs =>
    match dropPrefixChars? pat (c :: cs) with
    | some restEnd => rep ++ restEnd
    | none => c :: replaceFirstChars pat rep cs

/-- JavaScript `String.prototype.replace` with a string pattern: replace the
first occurrence only. -/
def replaceFirst (s pat rep : String) : String :=
  ⟨replaceFirstChars pat.data rep.data s.data⟩

/-- The request issued for a follow-up page: the `next_url` link with the
base URL stripped, empty params, no conditional header
(src/main.ts lines 237-238). -/
def nextPageRequest (nextUrl : String) : Request :=
  ⟨replaceFirst nextUrl WaniKaniURL "", [], none⟩

/-- The `while` loop of `unwrapCollection` (src/main.ts lines 233-247),
bounded by `fuel` (the source loop is unbounded; exhausting `fuel` is
reported as a rejection and is unreachable for any finite page chain given
enough fuel).  Accumulates records and the requests issued. -/
def unwrapGo {T : Type} (fetch : Request → Except Unit (Option (Collection T))) :
    Nat → Collection T → List (Resource T) → List Request →
    Except Unit (List (Resource T)) × List Request
  | 0, _, _, tr => (.error (), tr)
  | fuel + 1, cur, acc, tr =>
    match cur.pages.next_url with
    | none => (.ok acc, tr)
    | some u =>
      match fetch (nextPageRequest u) with
      | .error _ => (.error (), tr ++ [nextPageRequest u])
      | .ok none => (.ok acc, tr ++ [nextPageRequest u])
      | .ok (some nxt) =>
        unwrapGo fetch fuel nxt (acc ++ nxt.data) (tr ++ [nextPageRequest u])

/-- `unwrapCollection` (src/main.ts lines 233-247): start from the first
page's records and follow `next_url` links until a page has none. -/
def unwrapCollection {T : Type}
    (fetch : Request → Except Unit (Option (Collection T))) (fuel : Nat)
    (pageOne : Collection T) : Except Unit (List (Resource T)) × List Request :=
  unwrapGo fetch fuel pageOne pageOne.data []

/-- Result of one embedded `async` operation: the resolved value or a
rejection, the cache state afterwards, and the requests issued in order. -/
structure SyncResult (α : Type) where
  res : Except Unit α
  state : CacheState
  trace : List Request

/-- Merge a batch of fetched resources into a merged-collection object,
overwriting by key (`forEach` loops at src/main.ts lines 210-212, 219-221,
264-266, 273-275). -/
def mergeResources {T : Type} (keyOf : Resource T → Nat) (enc : Resource T → JValue)
    (m : JValue) (recs : List (Resource T)) : JValue :=
  recs.foldl (fun acc r => jsSet acc (toString (keyOf r)) (enc r)) m

/-- Assignments are keyed by `data.subject_id`. -/
def mergeAssignments (m : JValue) (recs : List (Resource Assignment)) : JValue :=
  mergeResources (fun r => r.data.subject_id) (encodeResource encodeAssignment) m recs

/-- The draft's assignments are also keyed by `data.subject_id`. -/
def mergeAssignmentsV0 (m : JValue) (recs : List (Resource AssignmentV0)) : JValue :=
  mergeResources (fun r => r.data.subject_id) (encodeResource encodeAssignmentV0) m recs

/-- Review statistics are keyed by the resource `id`. -/
def mergeReviewStats (m : JValue) (recs : List (Resource ReviewStatistics)) : JValue :=
  mergeResources (fun r => r.id) (encodeResource encodeReviewStatistics) m recs

/-- The `{ date: ... }` wrapper stored under the watermark cache keys. -/
def dateWrap (d : JValue) : JValue := .obj [("date", d)]

/-- The watermark initializer `{ date: undefined }`. -/
def dateDefault : JValue := dateWrap .undefined

/-- Final phase of `getReviewStatistics` (src/main.ts lines 278-281): persist
the watermark and the merged collection, return `Object.values` of the
merged collection. -/
def rsFinish (d rs : JValue) (s : CacheState) (tr : List Request) :
    SyncResult (List JValue) :=
  ⟨.ok (jsValues rs), setCache "reviewStats" rs (setCache "reviewStatsDate" (dateWrap d) s), tr⟩

/-- The conditional delta fetch request of `getReviewStatistics`
(src/main.ts line 260): `updated_after` and `If-Modified-Since` both set to
the watermark. -/
def rsDeltaReq (d0 : JValue) : Request :=
  ⟨"review_statistics", [("updated_after", d0)], some d0⟩

/-- The unconditional full fetch request of `getReviewStatistics`
(src/main.ts line 269). -/
def rsFullReq : Request := ⟨"review_statistics", [], none⟩

/-- Fetch-and-merge phase of `getReviewStatistics` (src/main.ts lines
259-277): with a truthy watermark, the conditional delta fetch; otherwise
the unconditional full fetch.  A `null` (304) first page skips the merge; a
rejection anywhere propagates before any `setCache`. -/
def rsFetchPhase (srv : Server) (fuel : Nat) (d0 oldRS : JValue)
    (s : CacheState) (tr : List Request) : SyncResult (List JValue) :=
  if jsTruthy d0 then
    match srv.reviewStats (rsDeltaReq d0) with
    | .error _ => ⟨.error (), s, tr ++ [rsDeltaReq d0]⟩
    | .ok none => rsFinish d0 oldRS s (tr ++ [rsDeltaReq d0])
    | .ok (some coll) =>
      match unwrapCollection srv.reviewStats fuel coll with
      | (.error _, utr) => ⟨.error (), s, tr ++ [rsDeltaReq d0] ++ utr⟩
      | (.ok recs, utr) =>
        rsFinish (.str coll.data_updated_at) (mergeReviewStats oldRS recs) s
          (tr ++ [rsDeltaReq d0] ++ utr)
  else
    match srv.reviewStats rsFullReq with
    | .error _ => ⟨.error (), s, tr ++ [rsFullReq]⟩
    | .ok none => rsFinish d0 oldRS s (tr ++ [rsFullReq])
    | .ok (some coll) =>
      match unwrapCollection srv.reviewStats fuel coll with
      | (.error _, utr) => ⟨.error (), s, tr ++ [rsFullReq] ++ utr⟩
      | (.ok recs, utr) =>
        rsFinish (.str coll.data_updated_at) (mergeReviewStats oldRS recs) s
          (tr ++ [rsFullReq] ++ utr)

/-- `getReviewStatistics` (src/main.ts lines 249-282): bootstrap the
watermark entry and the merged collection, extract the `.date` field of the
watermark when truthy, then fetch and merge. -/
def getReviewStatistics (srv : Server) (fuel : Nat) (s0 : CacheState) :
    SyncResult (List JValue) :=
  match getOrInitializeCache "reviewStatsDate" (pureInit dateDefault) s0 with
  | (.error e, s1, t1) => ⟨.error e, s1, t1⟩
  | (.ok dlu, s1, t1) =>
    let d0 := if jsTruthy dlu then jsGet dlu "date" else dlu
    match getOrInitializeCache "reviewStats" (pureInit (.obj [])) s1 with
    | (.error e, s2, t2) => ⟨.error e, s2, t1 ++ t2⟩
    | (.ok oldRS, s2, t2) => rsFetchPhase srv fuel d0 oldRS s2 (t1 ++ t2)

/-- The deduplicated union `[...new Set(subjectIds.concat(cachedKeys))]`
(first-occurrence order, src/main.ts line 204). -/
def dedupFirst (l : List Nat) : List Nat :=
  l.foldl (fun acc x => if acc.contains x then acc else acc ++ [x]) []

/-- The comma-joined `subject_ids` parameter value. -/
def joinIds (ids : List Nat) : JValue :=
  .str (String.intercalate "," (ids.map toString))

/-- Final phase of `getAssignments` (src/main.ts lines 224-230): persist the
watermark and merged collection, then return the records whose keys are in
the requested id set. -/
def asgFinish (subjectIds : List Nat) (d a : JValue) (s : CacheState)
    (tr : List Request) : SyncResult (List JValue) :=
  ⟨.ok (((jsKeys a).filter (fun k => subjectIds.contains (parseNat k))).map
      (fun k => jsGet a k)),
    setCache "Assignments" a (setCache "AssignmentsDate" (dateWrap d) s), tr⟩

/-- The conditional delta fetch request of `getAssignments` (src/main.ts
line 206): `updated_after`, the id allow-list, and `If-Modified-Since`. -/
def asgDeltaReq (d1 joined : JValue) : Request :=
  ⟨"assignments", [("updated_after", d1), ("subject_ids", joined)], some d1⟩

/-- The unconditional full fetch request of `getAssignments` (src/main.ts
line 215): only the id allow-list, no conditional header. -/
def asgFullReq (joined : JValue) : Request :=
  ⟨"assignments", [("subject_ids", joined)], none⟩

/-- Fetch-and-merge phase of `getAssignments` (src/main.ts lines 205-223):
`d1` is the watermark after the completeness check.  When truthy, the
conditional delta fetch; otherwise the unconditional full fetch. -/
def asgFetchPhase (srv : Server) (fuel : Nat) (subjectIds : List Nat)
    (d1 oldA joined : JValue) (s : CacheState) (tr : List Request) :
    SyncResult (List JValue) :=
  if jsTruthy d1 then
    match srv.assignments (asgDeltaReq d1 joined) with
    | .error _ => ⟨.error (), s, tr ++ [asgDeltaReq d1 joined]⟩
    | .ok none => asgFinish subjectIds d1 oldA s (tr ++ [asgDeltaReq d1 joined])
    | .ok (some coll) =>
      match unwrapCollection srv.assignments fuel coll with
      | (.error _, utr) => ⟨.error (), s, tr ++ [asgDeltaReq d1 joined] ++ utr⟩
      | (.ok recs, utr) =>
        asgFinish subjectIds (.str coll.data_updated_at)
          (mergeAssignments oldA recs) s (tr ++ [asgDeltaReq d1 joined] ++ utr)
  else
    match srv.assignments (asgFullReq joined) with
    | .error _ => ⟨.error (), s, tr ++ [asgFullReq joined]⟩
    | .ok none => asgFinish subjectIds d1 oldA s (tr ++ [asgFullReq joined])
    | .ok (some coll) =>
      match unwrapCollection srv.assignments fuel coll with
      | (.error _, utr) => ⟨.error (), s, tr ++ [asgFullReq joined] ++ utr⟩
      | (.ok recs, utr) =>
        asgFinish subjectIds (.str coll.data_updated_at)
          (mergeAssignments oldA recs) s (tr ++ [asgFullReq joined] ++ utr)

/-- `getAssignments` (src/main.ts lines 181-231): an empty id list returns
immediately; otherwise bootstrap the watermark and merged collection, clear
the watermark when any requested id is missing from the merged collection
(forcing a full refresh), and fetch and merge.  The source wraps the
`Assignments` bootstrap in try/catch, but its initializer is a resolved
promise and cannot reject; a rejection would leave `oldAssignments` null and
crash on the very next line, so it is modelled as propagation. -/
def getAssignments (srv : Server) (fuel : Nat) (subjectIds : List Nat)
    (s0 : CacheState) : SyncResult (List JValue) :=
  if subjectIds.length == 0 then ⟨.ok [], s0, []⟩
  else
    match getOrInitializeCache "AssignmentsDate" (pureInit dateDefault) s0 with
    | (.error e, s1, t1) => ⟨.error e, s1, t1⟩
    | (.ok dlu, s1, t1) =>
      let d0 := if jsTruthy dlu then jsGet dlu "date" else dlu
      match getOrInitializeCache "Assignments" (pureInit (.obj [])) s1 with
      | (.error e, s2, t2) => ⟨.error e, s2, t1 ++ t2⟩
      | (.ok oldA, s2, t2) =>
        let d1 := if subjectIds.all (fun id => jsHas oldA (toString id)) then d0
                  else .null
        let allIds := dedupFirst (subjectIds ++ (jsKeys oldA).map parseNat)
        asgFetchPhase srv fuel subjectIds d1 oldA (joinIds allIds) s2 (t1 ++ t2)

/-- Final phase of the draft `getAssignments` (src/unnamed/part_000 lines
233-239): persist, then return either every record or the requested subset. -/
def asgV0Finish (subjectIds : List Nat) (getAllAssignments : Bool)
    (d a : JValue) (s : CacheState) (tr : List Request) :
    SyncResult (List JValue) :=
  ⟨.ok ((if getAllAssignments then jsKeys a
         else (jsKeys a).filter (fun k => subjectIds.contains (parseNat k))).map
      (fun k => jsGet a k)),
    setCache "Assignments" a (setCache "AssignmentsDate" (dateWrap d) s), tr⟩

/-- The single fetch request of the draft `getAssignments`
(src/unnamed/part_000 lines 218-224): `updated_after` when the watermark is
truthy, but — unlike `getReviewStatistics` — never an `If-Modified-Since`
header (the third `getWaniKani` argument is omitted at line 224). -/
def asgV0Req (d0 : JValue) : Request :=
  ⟨"assignments", if jsTruthy d0 then [("updated_after", d0)] else [], none⟩

/-- The draft `getAssignments` (src/unnamed/part_000 lines 210-240): no
completeness check and no id allow-list parameter; with a truthy watermark
the request carries `updated_after` but no conditional header. -/
def getAssignmentsV0 (srv : Server) (fuel : Nat) (subjectIds : List Nat)
    (getAllAssignments : Bool) (s0 : CacheState) : SyncResult (List JValue) :=
  if !getAllAssignments && subjectIds.length == 0 then ⟨.ok [], s0, []⟩
  else
    match getOrInitializeCache "AssignmentsDate" (pureInit dateDefault) s0 with
    | (.error e, s1, t1) => ⟨.error e, s1, t1⟩
    | (.ok dlu, s1, t1) =>
      let d0 := jsGet dlu "date"
      match getOrInitializeCache "Assignments" (pureInit (.obj [])) s1 with
      | (.error e, s2, t2) => ⟨.error e, s2, t1 ++ t2⟩
      | (.ok oldA, s2, t2) =>
        match srv.assignmentsV0 (asgV0Req d0) with
        | .error _ => ⟨.error (), s2, t1 ++ t2 ++ [asgV0Req d0]⟩
        | .ok none =>
          asgV0Finish subjectIds getAllAssignments d0 oldA s2
            (t1 ++ t2 ++ [asgV0Req d0])
        | .ok (some coll) =>
          match unwrapCollection srv.assignmentsV0 fuel coll with
          | (.error _, utr) => ⟨.error (), s2, t1 ++ t2 ++ [asgV0Req d0] ++ utr⟩
          | (.ok recs, utr) =>
            asgV0Finish subjectIds getAllAssignments (.str coll.data_updated_at)
              (mergeAssignmentsV0 oldA recs) s2 (t1 ++ t2 ++ [asgV0Req d0] ++ utr)

/-- JavaScript `String(v)` as used by string concatenation in the report
builder (the program only concatenates strings; other cases follow the
JavaScript coercions for completeness, with composite values approximated). -/
def jsToString : JValue → String
  | .undefined => "undefined"
  | .null => "null"
  | .bool b => if b then "true" else "false"
  | .num n => toString n
  | .str s => s
  | .arr _ => ""
  | .obj _ => "[object Object]"

/-- Loose string comparison `v == 'lit'`; every compared field is a string
in the embedded data. -/
def jsEqStr (v : JValue) (s : String) : Bool :=
  match v with
  | .str t => t == s
  | _ => false

/-- `v >= n` on a numeric field. -/
def jsGeInt (v : JValue) (n : Int) : Bool :=
  match v with
  | .num m => decide (n ≤ m)
  | _ => false

/-- `v <= n` on a numeric field. -/
def jsLeInt (v : JValue) (n : Int) : Bool :=
  match v with
  | .num m => decide (m ≤ n)
  | _ => false

/-- Numeric field read as a `Nat` (ids are non-negative). -/
def jsAsNat (v : JValue) : Nat :=
  match v with
  | .num m => m.toNat
  | _ => 0

/-- Array field read as a list. -/
def jsArrElems : JValue → List JValue
  | .arr xs => xs
  | _ => []

/-- `getSubject` (src/main.ts lines 174-179): per-subject cache entry keyed
`subject-&lt;id&gt;`, initialized by an unconditional fetch of `subjects/&lt;id&gt;`
(a 304 `null` would be cached as `null`). -/
def getSubject (srv : Server) (id : Nat) (s : CacheState) : InitResult :=
  getOrInitializeCache ("subject-" ++ toString id)
    (fun s' =>
      let req : Request := ⟨"subjects/" ++ toString id, [], none⟩
      match srv.subjects req with
      | .error _ => (.error (), s', [req])
      | .ok none => (.ok .null, s', [req])
      | .ok (some j) => (.ok j, s', [req]))
    s

/-- `Promise.all(ids.map(getSubject))` (src/main.ts lines 306-310 and
siblings).  The promises run concurrently in the source but each touches
only its own `subject-&lt;id&gt;` key; they are modelled in list order. -/
def getSubjectsAll (srv : Server) :
    List Nat → CacheState → Except Unit (List JValue) × CacheState × List Request
  | [], s => (.ok [], s, [])
  | id :: rest, s =>
    match getSubject srv id s with
    | (.error e, s', tr) => (.error e, s', tr)
    | (.ok v, s', tr) =>
      match getSubjectsAll srv rest s' with
      | (.error e, s'', tr') => (.error e, s'', tr ++ tr')
      | (.ok vs, s'', tr') => (.ok (v :: vs), s'', tr ++ tr')

/-- `maxCurrentLevel` (src/main.ts line 290). -/
def maxCurrentLevel : Int := 5

/-- `minIncorrectCount` (src/main.ts line 291). -/
def minIncorrectCount : Int := 3

/-- A leech id filter (src/main.ts lines 298-302 and the three sibling
copies): review statistics of the given subject type whose given incorrect
count reaches the threshold, mapped to their subject ids. -/
def leechIds (stats : List JValue) (stype field : String) : List Nat :=
  (stats.filter (fun r =>
      jsEqStr (jsGet (jsGet r "data") "subject_type") stype &&
      jsGeInt (jsGet (jsGet r "data") field) minIncorrectCount)).map
    (fun r => jsAsNat (jsGet (jsGet r "data") "subject_id"))

/-- One leech pipeline (src/main.ts lines 304-310 and the three sibling
copies): sync the assignments for the leech ids, keep those at or below the
SRS cutoff, and fetch their subjects. -/
def leechPipeline (srv : Server) (fuel : Nat) (ids : List Nat)
    (s : CacheState) : Except Unit (List JValue) × CacheState × List Request :=
  match getAssignments srv fuel ids s with
  | ⟨.error e, s', tr⟩ => (.error e, s', tr)
  | ⟨.ok asgs, s', tr⟩ =>
    let wanted := (asgs.filter (fun a =>
        jsLeInt (jsGet (jsGet a "data") "srs_stage") maxCurrentLevel)).map
      (fun a => jsAsNat (jsGet (jsGet a "data") "subject_id"))
    match getSubjectsAll srv wanted s' with
    | (.error e, s'', tr') => (.error e, s'', tr ++ tr')
    | (.ok subjs, s'', tr') => (.ok subjs, s'', tr ++ tr')

/-- `csvLine` (src/main.ts lines 284-286). -/
def csvLine (question : String) (answers : List String) (comment : String)
    (instr : String) (renderAsImage : Bool) : String :=
  question ++ "," ++
    (if answers.length == 1 then answers.headD ""
     else "\"" ++ String.intercalate "," answers ++ "\"") ++
    "," ++ comment ++ "," ++ instr ++ "," ++
    (if renderAsImage then "Image" else "Text") ++ "\n"

/-- `csvHeader` (src/main.ts line 288). -/
def csvHeader : String := "Question,Answers,Comment,Instructions,Render as\n"

/-- The meanings of a subject, as rendered into answer lists. -/
def subjectMeanings (subj : JValue) : List String :=
  (jsArrElems (jsGet (jsGet subj "data") "meanings")).map
    (fun m => jsToString (jsGet m "meaning"))

/-- The readings of a subject, as rendered into answer lists. -/
def subjectReadings (subj : JValue) : List String :=
  (jsArrElems (jsGet (jsGet subj "data") "readings")).map
    (fun m => jsToString (jsGet m "reading"))

/-- The CSV body built by `main` (src/main.ts lines 354-366). -/
def buildLeechCSV (kanjiMeaning kanjiReading vocabMeaning vocabReading :
    List JValue) : String :=
  csvHeader ++
  String.join (kanjiMeaning.map (fun subj =>
    csvLine ("「" ++ jsToString (jsGet (jsGet subj "data") "characters") ++ "」")
      (subjectMeanings subj)
      ("View this kanji on WaniKani: <" ++
        jsToString (jsGet (jsGet subj "data") "document_url") ++ ">")
      "What is the **meaning** of this Kanji?" true)) ++
  String.join (kanjiReading.map (fun subj =>
    csvLine (jsToString (jsGet (jsGet subj "data") "characters"))
      (subjectReadings subj)
      ("View this kanji on WaniKani: <" ++
        jsToString (jsGet (jsGet subj "data") "document_url") ++ ">")
      "What is the **reading** of this Kanji?" true)) ++
  String.join (vocabMeaning.map (fun subj =>
    csvLine ("「" ++ jsToString (jsGet (jsGet subj "data") "characters") ++ "」")
      (subjectMeanings subj)
      ("View this vocabulary word on WaniKani: <" ++
        jsToString (jsGet (jsGet subj "data") "document_url") ++ ">")
      "What is the **meaning** of this vocabulary word?" true)) ++
  String.join (vocabReading.map (fun subj =>
    csvLine (jsToString (jsGet (jsGet subj "data") "characters"))
      (subjectReadings subj)
      ("View this vocabulary word on WaniKani: <" ++
        jsToString (jsGet (jsGet subj "data") "document_url") ++ ">")
      "What is the **reading** of this vocabulary word?" true))

/-- `main` (src/main.ts lines 293-369): load the cache from disk, sync the
review statistics, run the four leech pipelines, and produce the CSV (the
final `fs.promises.writeFile('WaniKaniLeeches.csv', ...)` is represented by
the returned string).  Every `await` is un-guarded in the source: any
rejection propagates out of `main`, which is invoked without a handler. -/
def mainModel (srv : Server) (fuel : Nat) (disk0 : List (String × JValue)) :
    Except Unit String × CacheState × List Request :=
  let s0 := loadCache ⟨[], disk0, []⟩
  match getReviewStatistics srv fuel s0 with
  | ⟨.error e, s1, t1⟩ => (.error e, s1, t1)
  | ⟨.ok stats, s1, t1⟩ =>
    match leechPipeline srv fuel (leechIds stats "kanji" "meaning_incorrect") s1 with
    | (.error e, s2, t2) => (.error e, s2, t1 ++ t2)
    | (.ok kanjiMeaning, s2, t2) =>
      match leechPipeline srv fuel (leechIds stats "kanji" "reading_incorrect") s2 with
      | (.error e, s3, t3) => (.error e, s3, t1 ++ t2 ++ t3)
      | (.ok kanjiReading, s3, t3) =>
        match leechPipeline srv fuel
            (leechIds stats "vocabulary" "meaning_incorrect") s3 with
        | (.error e, s4, t4) => (.error e, s4, t1 ++ t2 ++ t3 ++ t4)
        | (.ok vocabMeaning, s4, t4) =>
          match leechPipeline srv fuel
              (leechIds stats "vocabulary" "reading_incorrect") s4 with
          | (.error e, s5, t5) => (.error e, s5, t1 ++ t2 ++ t3 ++ t4 ++ t5)
          | (.ok vocabReading, s5, t5) =>
            (.ok (buildLeechCSV kanjiMeaning kanjiReading vocabMeaning vocabReading),
              s5, t1 ++ t2 ++ t3 ++ t4 ++ t5)

theorem find_map_replace (k : String) (v : JValue) :
    ∀ fields : List (String × JValue), fields.any (fun f => f.1 == k) = true →
      (fields.map (fun f => if f.1 == k then (k, v) else f)).find?
        (fun f => f.1 == k) = some (k, v) := by
  intro fields h
  induction fields with
  | nil => simp at h
  | cons f fs ih =>
    simp only [List.any_cons, Bool.or_eq_true] at h
    by_cases hf : (f.1 == k) = true
    · simp only [List.map_cons, if_pos hf]
      exact List.find?_cons_of_pos _ (by simp)
    · have h' := h.resolve_left hf
      simp only [List.map_cons, if_neg hf]
      rw [List.find?_cons_of_neg _ (by simpa using hf), ih h']

theorem find_insertIndexKey (k : String) (v : JValue) :
    ∀ fields : List (String × JValue), fields.any (fun f => f.1 == k) = false →
      (insertIndexKey fields k v).find? (fun f => f.1 == k) = some (k, v) := by
  intro fields h
  induction fields with
  | nil => simp [insertIndexKey, List.find?_cons_of_pos]
  | cons f fs ih =>
    simp only [List.any_cons, Bool.or_eq_false_iff] at h
    obtain ⟨hf, hfs⟩ := h
    unfold insertIndexKey
    by_cases hc : (isIndexKey f.1 && decide (indexKeyVal f.1 < indexKeyVal k)) = true
    · rw [if_pos hc, List.find?_cons_of_neg _ (by simp [hf]), ih hfs]
    · rw [if_neg hc, List.find?_cons_of_pos _ (by simp)]

theorem jsObjSetField_find_self (fields : List (String × JValue)) (k : String)
    (v : JValue) :
    (jsObjSetField fields k v).find? (fun f => f.1 == k) = some (k, v) := by
  unfold jsObjSetField
  by_cases h : fields.any (fun f => f.1 == k) = true
  · rw [if_pos h]; exact find_map_replace k v fields h
  · rw [if_neg h]
    by_cases hik : isIndexKey k = true
    · rw [if_pos hik]
      exact find_insertIndexKey k v fields (Bool.eq_false_iff.mpr h)
    · have hnone : fields.find? (fun f => f.1 == k) = none := by
        rw [List.find?_eq_none]
        intro x hx hpx
        exact h (List.any_eq_true.mpr ⟨x, hx, hpx⟩)
      rw [if_neg hik, List.find?_append, hnone]
      simp [List.find?_cons_of_pos]

theorem find_map_replace_ne (k k' : String) (v : JValue)
    (hne : (k == k') = false) :
    ∀ fields : List (String × JValue),
      (fields.map (fun f => if f.1 == k then (k, v) else f)).find?
        (fun f => f.1 == k') = fields.find? (fun f => f.1 == k') := by
  intro fields
  induction fields with
  | nil => rfl
  | cons f fs ih =>
    by_cases hf : (f.1 == k) = true
    · have hf' : (f.1 == k') = false := by
        have : f.1 = k := by simpa using hf
        simpa [this] using hne
      simp only [List.map_cons, if_pos hf]
      rw [List.find?_cons_of_neg _ (by simp [hne]),
        List.find?_cons_of_neg _ (by simp [hf']), ih]
    · simp only [List.map_cons, if_neg hf]
      by_cases hp : (f.1 == k') = true
      · rw [List.find?_cons_of_pos _ (by simpa using hp),
          List.find?_cons_of_pos _ (by simpa using hp)]
      · rw [List.find?_cons_of_neg _ (by simpa using hp),
          List.find?_cons_of_neg _ (by simpa using hp), ih]

theorem find_insertIndexKey_ne (k k' : String) (v : JValue)
    (hne : (k == k') = false) :
    ∀ fields : List (String × JValue),
      (insertIndexKey fields k v).find? (fun f => f.1 == k') =
        fields.find? (fun f => f.1 == k') := by
  intro fields
  induction fields with
  | nil => simp [insertIndexKey, List.find?_cons_of_neg, hne]
  | cons f fs ih =>
    unfold insertIndexKey
    by_cases hc : (isIndexKey f.1 && decide (indexKeyVal f.1 < indexKeyVal k)) = true
    · rw [if_pos hc]
      by_cases hp : (f.1 == k') = true
      · rw [List.find?_cons_of_pos _ (by simpa using hp),
          List.find?_cons_of_pos _ (by simpa using hp)]
      · rw [List.find?_cons_of_neg _ (by simpa using hp),
          List.find?_cons_of_neg _ (by simpa using hp), ih]
    · rw [if_neg hc, List.find?_cons_of_neg _ (by simp [hne])]

theorem jsObjSetField_find_ne (fields : List (String × JValue)) (k k' : String)
    (v : JValue) (hne : (k == k') = false) :
    (jsObjSetField fields k v).find? (fun f => f.1 == k') =
      fields.find? (fun f => f.1 == k') := by
  unfold jsObjSetField
  by_cases h : fields.any (fun f => f.1 == k) = true
  · rw [if_pos h]; exact find_map_replace_ne k k' v hne fields
  · rw [if_neg h]
    by_cases hik : isIndexKey k = true
    · rw [if_pos hik]; exact find_insertIndexKey_ne k k' v hne fields
    · rw [if_neg hik, List.find?_append]
      rw [List.find?_cons_of_neg _ (by simp [hne])]
      simp

theorem setCache_noop (k : String) (v : JValue) (s : CacheState)
    (h : stringifyVal (jsOrEmpty (lookupMem s k)) = stringifyVal v) :
    setCache k v s = s := by
  unfold setCache
  simp [h]

theorem setCache_write (k : String) (v : JValue) (s : CacheState)
    (h : stringifyVal (jsOrEmpty (lookupMem s k)) ≠ stringifyVal v) :
    setCache k v s =
      ⟨jsObjSetField s.mem k v, upsert s.disk k v,
        s.writes ++ [(k, (stringifyVal v).getD "undefined")]⟩ := by
  unfold setCache
  simp [h]

theorem lookupMem_setCache_self_of_write (k : String) (v : JValue)
    (s : CacheState)
    (h : stringifyVal (jsOrEmpty (lookupMem s k)) ≠ stringifyVal v) :
    lookupMem (setCache k v s) k = some v := by
  rw [setCache_write k v s h]
  unfold lookupMem
  simp [jsObjSetField_find_self]

theorem lookupMem_setCache_ne (k k' : String) (v : JValue) (s : CacheState)
    (hne : (k == k') = false) :
    lookupMem (setCache k v s) k' = lookupMem s k' := by
  unfold setCache
  by_cases h : stringifyVal (jsOrEmpty (lookupMem s k)) ≠ stringifyVal v
  · simp only [if_pos h]
    unfold lookupMem
    simp [jsObjSetField_find_ne _ _ _ _ hne]
  · simp [h]

theorem stringify_emptyObj : stringifyVal (.obj []) = some emptyObjJson := rfl

theorem jsOrEmpty_looseUndef (v : JValue) (h : jsLooseUndef v = true) :
    jsOrEmpty (some v) = .obj [] := by
  cases v <;> simp_all [jsLooseUndef, jsOrEmpty, jsTruthy]

theorem gi_pure_none (k : String) (d : JValue) (s : CacheState)
    (hl : lookupMem s k = none) :
    getOrInitializeCache k (pureInit d) s = (.ok d, setCache k d s, []) := by
  unfold getOrInitializeCache
  rw [hl]
  rfl

theorem gi_pure_some (k : String) (d v : JValue) (s : CacheState)
    (hl : lookupMem s k = some v) (hu : jsLooseUndef v = false) :
    getOrInitializeCache k (pureInit d) s = (.ok v, s, []) := by
  unfold getOrInitializeCache
  rw [hl]
  simp [hu]

theorem gi_pure_some_undef (k : String) (d v : JValue) (s : CacheState)
    (hl : lookupMem s k = some v) (hu : jsLooseUndef v = true) :
    getOrInitializeCache k (pureInit d) s = (.ok d, setCache k d s, []) := by
  unfold getOrInitializeCache
  rw [hl]
  simp only [hu, if_true]
  rfl

theorem gi_pure_default (k : String) (d : JValue) (s : CacheState)
    (hd : stringifyVal d = some emptyObjJson) :
    ∃ v, getOrInitializeCache k (pureInit d) s = (.ok v, s, []) := by
  cases hl : lookupMem s k with
  | none =>
    refine ⟨d, ?_⟩
    rw [gi_pure_none k d s hl,
      setCache_noop k d s (by rw [hl]; simp [jsOrEmpty, stringify_emptyObj, hd])]
  | some v =>
    by_cases hu : jsLooseUndef v = true
    · refine ⟨d, ?_⟩
      rw [gi_pure_some_undef k d v s hl hu,
        setCache_noop k d s
          (by rw [hl, jsOrEmpty_looseUndef v hu, stringify_emptyObj, hd])]
    · exact ⟨v, gi_pure_some k d v s hl (Bool.eq_false_iff.mpr hu)⟩

/-- The chain of follow-up pages successfully reachable from a page by
following `next_url` links: `Chain fetch c rest` states that from page `c`
the fetches of the linked pages succeed, yielding `rest` in order, and the
final page carries no further link. -/
inductive Chain {T : Type}
    (fetch : Request → Except Unit (Option (Collection T))) :
    Collection T → List (Collection T) → Prop where
  | last : ∀ c, c.pages.next_url = none → Chain fetch c []
  | step : ∀ c u c2 rest, c.pages.next_url = some u →
      fetch (nextPageRequest u) = .ok (some c2) →
      Chain fetch c2 rest → Chain fetch c (c2 :: rest)

theorem unwrapGo_chain {T : Type}
    (fetch : Request → Except Unit (Option (Collection T)))
    (c : Collection T) (rest : List (Collection T))
    (hchain : Chain fetch c rest) :
    ∀ (fuel : Nat) (acc : List (Resource T)) (tr : List Request),
      rest.length < fuel →
      ∃ utr, unwrapGo fetch fuel c acc tr =
          (.ok (acc ++ rest.flatMap (fun p => p.data)), tr ++ utr) ∧
        ∀ r ∈ utr, r.ifModifiedSince = none := by
  induction hchain with
  | last c hc =>
    intro fuel acc tr hfuel
    cases fuel with
    | zero => omega
    | succ n =>
      refine ⟨[], ?_, by simp⟩
      unfold unwrapGo
      rw [hc]
      simp
  | step c u c2 rest hc hf _ ih =>
    intro fuel acc tr hfuel
    cases fuel with
    | zero => omega
    | succ n =>
      have hn : rest.length < n := by
        simpa using hfuel
      obtain ⟨utr, hgo, hutr⟩ := ih n (acc ++ c2.data) (tr ++ [nextPageRequest u]) hn
      refine ⟨nextPageRequest u :: utr, ?_, ?_⟩
      · unfold unwrapGo
        simp only [hc, hf, hgo, List.flatMap_cons]
        simp [List.append_assoc]
      · intro r hr
        rcases List.mem_cons.mp hr with h | h
        · rw [h]; rfl
        · exact hutr r h

theorem unwrapCollection_chain {T : Type}
    (fetch : Request → Except Unit (Option (Collection T)))
    (pageOne : Collection T) (rest : List (Collection T)) (fuel : Nat)
    (hchain : Chain fetch pageOne rest) (hfuel : rest.length < fuel) :
    ∃ utr, unwrapCollection fetch fuel pageOne =
        (.ok (pageOne.data ++ rest.flatMap (fun p => p.data)), utr) ∧
      ∀ r ∈ utr, r.ifModifiedSince = none := by
  obtain ⟨utr, hgo, hutr⟩ := unwrapGo_chain fetch pageOne rest hchain fuel
    pageOne.data [] hfuel
  exact ⟨utr, by simpa [unwrapCollection] using hgo, hutr⟩

theorem rsFinish_res (d rs : JValue) (s : CacheState) (tr : List Request) :
    (rsFinish d rs s tr).res = .ok (jsValues rs) := rfl

theorem asgFinish_res (subjectIds : List Nat) (d a : JValue) (s : CacheState)
    (tr : List Request) :
    (asgFinish subjectIds d a s tr).res =
      .ok (((jsKeys a).filter (fun k => subjectIds.contains (parseNat k))).map
        (fun k => jsGet a k)) := rfl

theorem rsFetchPhase_error_state (srv : Server) (fuel : Nat) (d0 oldRS : JValue)
    (s : CacheState) (tr : List Request) :
    (rsFetchPhase srv fuel d0 oldRS s tr).res = .error () →
    (rsFetchPhase srv fuel d0 oldRS s tr).state = s := by
  unfold rsFetchPhase
  by_cases hd : jsTruthy d0 = true
  · rw [if_pos hd]
    cases hf : srv.reviewStats (rsDeltaReq d0) with
    | error e => intro _; rfl
    | ok o =>
      cases o with
      | none => intro h; simp [rsFinish_res] at h
      | some coll =>
        rcases hu : unwrapCollection srv.reviewStats fuel coll with ⟨ur, utr⟩
        simp only []
        rw [hu]
        cases ur with
        | error e => intro _; rfl
        | ok recs => intro h; simp [rsFinish_res] at h
  · rw [if_neg hd]
    cases hf : srv.reviewStats rsFullReq with
    | error e => intro _; rfl
    | ok o =>
      cases o with
      | none => intro h; simp [rsFinish_res] at h
      | some coll =>
        rcases hu : unwrapCollection srv.reviewStats fuel coll with ⟨ur, utr⟩
        simp only []
        rw [hu]
        cases ur with
        | error e => intro _; rfl
        | ok recs => intro h; simp [rsFinish_res] at h

theorem asgFetchPhase_error_state (srv : Server) (fuel : Nat)
    (subjectIds : List Nat) (d1 oldA joined : JValue) (s : CacheState)
    (tr : List Request) :
    (asgFetchPhase srv fuel subjectIds d1 oldA joined s tr).res = .error () →
    (asgFetchPhase srv fuel subjectIds d1 oldA joined s tr).state = s := by
  unfold asgFetchPhase
  by_cases hd : jsTruthy d1 = true
  · rw [if_pos hd]
    cases hf : srv.assignments (asgDeltaReq d1 joined) with
    | error e => intro _; rfl
    | ok o =>
      cases o with
      | none => intro h; simp [asgFinish_res] at h
      | some coll =>
        rcases hu : unwrapCollection srv.assignments fuel coll with ⟨ur, utr⟩
        simp only []
        rw [hu]
        cases ur with
        | error e => intro _; rfl
        | ok recs => intro h; simp [asgFinish_res] at h
  · rw [if_neg hd]
    cases hf : srv.assignments (asgFullReq joined) with
    | error e => intro _; rfl
    | ok o =>
      cases o with
      | none => intro h; simp [asgFinish_res] at h
      | some coll =>
        rcases hu : unwrapCollection srv.assignments fuel coll with ⟨ur, utr⟩
        simp only []
        rw [hu]
        cases ur with
        | error e => intro _; rfl
        | ok recs => intro h; simp [asgFinish_res] at h

theorem getReviewStatistics_error_state (srv : Server) (fuel : Nat)
    (s0 : CacheState) :
    (getReviewStatistics srv fuel s0).res = .error () →
    (getReviewStatistics srv fuel s0).state = s0 := by
  obtain ⟨v1, h1⟩ := gi_pure_default "reviewStatsDate" dateDefault s0 rfl
  obtain ⟨v2, h2⟩ := gi_pure_default "reviewStats" (.obj []) s0 rfl
  unfold getReviewStatistics
  simp only [h1, h2, List.nil_append]
  exact rsFetchPhase_error_state srv fuel _ v2 s0 []

theorem getAssignments_error_state (srv : Server) (fuel : Nat)
    (subjectIds : List Nat) (s0 : CacheState) :
    (getAssignments srv fuel subjectIds s0).res = .error () →
    (getAssignments srv fuel subjectIds s0).state = s0 := by
  obtain ⟨v1, h1⟩ := gi_pure_default "AssignmentsDate" dateDefault s0 rfl
  obtain ⟨v2, h2⟩ := gi_pure_default "Assignments" (.obj []) s0 rfl
  unfold getAssignments
  by_cases hlen : (subjectIds.length == 0) = true
  · rw [if_pos hlen]
    intro h
    simp at h
  · rw [if_neg hlen]
    simp only [h1, h2, List.nil_append]
    exact asgFetchPhase_error_state srv fuel subjectIds _ v2 _ s0 []

/-- A server all of whose fetches reject (network failure on every page). -/
def failingServer : Server :=
  ⟨fun _ => .error (), fun _ => .error (), fun _ => .error (), fun _ => .error ()⟩

/-- The empty cache state of a fresh process with an empty cache directory. -/
def emptyCache : CacheState := ⟨[], [], []⟩

/-- C1: for every sync (`getAssignments` or `getReviewStatistics`), if a
network fetch fails at any point during pagination (the promise rejects on
any page), the persisted MergedCollection and watermark cache entries after
the failed attempt are identical to their values before the attempt — the
whole cache state is unchanged, so no partially accumulated page sequence is
ever merged or written. -/
theorem sync_failure_preserves_state (srv : Server) (fuel : Nat)
    (subjectIds : List Nat) (s0 : CacheState) :
    ((getReviewStatistics srv fuel s0).res = .error () →
      (getReviewStatistics srv fuel s0).state = s0) ∧
    ((getAssignments srv fuel subjectIds s0).res = .error () →
      (getAssignments srv fuel subjectIds s0).state = s0) :=
  ⟨getReviewStatistics_error_state srv fuel s0,
    getAssignments_error_state srv fuel subjectIds s0⟩

/-- Witness for C1: a concrete failing fetch leaves the concrete cache state
untouched for both syncs. -/
theorem sync_failure_preserves_state_witness :
    (getReviewStatistics failingServer 5 emptyCache).state = emptyCache ∧
    (getAssignments failingServer 5 [1] emptyCache).state = emptyCache :=
  ⟨(sync_failure_preserves_state failingServer 5 [1] emptyCache).1 rfl,
    (sync_failure_preserves_state failingServer 5 [1] emptyCache).2 rfl⟩

theorem rsFetchPhase_304 (srv : Server) (fuel : Nat) (d0 m : JValue)
    (s : CacheState) (tr : List Request) (hd : jsTruthy d0 = true)
    (hf : srv.reviewStats (rsDeltaReq d0) = .ok none) :
    rsFetchPhase srv fuel d0 m s tr = rsFinish d0 m s (tr ++ [rsDeltaReq d0]) := by
  unfold rsFetchPhase
  rw [if_pos hd, hf]

/-- C2: when the remote responds "unchanged" (HTTP 304, surfaced as a null
collection) to the conditional fetch of `getReviewStatistics`, the persisted
MergedCollection and watermark are unchanged (the whole cache state is
unchanged), and the returned value is `Object.values` of the pre-sync cached
MergedCollection. -/
theorem unchanged_sync_noop (srv : Server) (fuel : Nat) (s0 : CacheState)
    (t : String) (fields : List (String × JValue)) (ht : t ≠ "")
    (hwm : lookupMem s0 "reviewStatsDate" = some (dateWrap (.str t)))
    (hm : lookupMem s0 "reviewStats" = some (.obj fields))
    (hfetch : srv.reviewStats (rsDeltaReq (.str t)) = .ok none) :
    getReviewStatistics srv fuel s0 =
      ⟨.ok (jsValues (.obj fields)), s0, [rsDeltaReq (.str t)]⟩ := by
  have htr : jsTruthy (JValue.str t) = true := by
    simp only [jsTruthy, Bool.not_eq_true']
    exact Bool.eq_false_iff.mpr (fun h => ht ((String.isEmpty_iff t).mp h))
  have h1 := gi_pure_some "reviewStatsDate" dateDefault (dateWrap (.str t)) s0 hwm rfl
  have h2 := gi_pure_some "reviewStats" (.obj []) (.obj fields) s0 hm rfl
  have hs1 : setCache "reviewStatsDate" (dateWrap (.str t)) s0 = s0 := by
    apply setCache_noop
    rw [hwm]
    rfl
  have hs2 : setCache "reviewStats" (.obj fields) s0 = s0 := by
    apply setCache_noop
    rw [hm]
    rfl
  unfold getReviewStatistics
  simp only [h1, h2]
  rw [show (if jsTruthy (dateWrap (.str t)) = true then
        jsGet (dateWrap (.str t)) "date" else dateWrap (.str t)) = .str t from rfl]
  rw [rsFetchPhase_304 srv fuel (.str t) (.obj fields) s0 ([] ++ []) htr hfetch]
  unfold rsFinish
  rw [hs1, hs2]
  simp

/-- Witness for C2: a concrete 304 response on a concrete warm cache. -/
theorem unchanged_sync_noop_witness :
    getReviewStatistics
        ⟨fun _ => .error (), fun _ => .error (), fun _ => .ok none,
          fun _ => .error ()⟩ 5
        ⟨[("reviewStatsDate", dateWrap (.str "T0")),
          ("reviewStats", .obj [("7", .num 7)])], [], []⟩ =
      ⟨.ok [.num 7],
        ⟨[("reviewStatsDate", dateWrap (.str "T0")),
          ("reviewStats", .obj [("7", .num 7)])], [], []⟩,
        [rsDeltaReq (.str "T0")]⟩ :=
  unchanged_sync_noop _ 5 _ "T0" [("7", .num 7)] (by simp) rfl rfl rfl

/-- C10: for the empty list of needed subject ids (and, in the draft
variant, the get-all-assignments flag false), `getAssignments` returns the
empty list immediately: no network request is issued, no watermark is read,
and every cache entry (in-memory and durable) is left unchanged. -/
theorem empty_subjectIds_noop (srv : Server) (fuel : Nat) (s0 : CacheState) :
    getAssignments srv fuel [] s0 = ⟨.ok [], s0, []⟩ ∧
    getAssignmentsV0 srv fuel [] false s0 = ⟨.ok [], s0, []⟩ :=
  ⟨rfl, rfl⟩

theorem jsGet_jsObjSetField_self (fields : List (String × JValue))
    (k : String) (v : JValue) :
    jsGet (.obj (jsObjSetField fields k v)) k = v := by
  unfold jsGet
  simp only []
  rw [jsObjSetField_find_self]
  rfl

/-- C8: a MergedCollection maps each record id to the most recently observed
record: if the merged collection already holds `r1enc` under the subject id
of a new assignment record `r2`, then after merging `r2` a lookup of that id
returns the encoding of `r2` — and never the old `r1enc` when the two
differ. -/
theorem merge_overwrites_by_id (fields : List (String × JValue))
    (r1enc : JValue) (r2 : Resource Assignment)
    (_hold : jsGet (.obj fields) (toString r2.data.subject_id) = r1enc)
    (hne : r1enc ≠ encodeResource encodeAssignment r2) :
    jsGet (mergeAssignments (.obj fields) [r2]) (toString r2.data.subject_id) =
        encodeResource encodeAssignment r2 ∧
      jsGet (mergeAssignments (.obj fields) [r2]) (toString r2.data.subject_id) ≠
        r1enc := by
  have hset : mergeAssignments (.obj fields) [r2] =
      .obj (jsObjSetField fields (toString r2.data.subject_id)
        (encodeResource encodeAssignment r2)) := rfl
  rw [hset, jsGet_jsObjSetField_self]
  exact ⟨rfl, fun h => hne h.symm⟩

/-- Witness for C8: a concrete overwrite of subject id 7 (old SRS stage 1,
new SRS stage 2). -/
theorem merge_overwrites_by_id_witness :
    jsGet (mergeAssignments
        (.obj [("7", encodeResource encodeAssignment ⟨100, "assignment", "u", "t1", ⟨1, 7⟩⟩)])
        [⟨100, "assignment", "u", "t2", ⟨2, 7⟩⟩]) "7" =
        encodeResource encodeAssignment ⟨100, "assignment", "u", "t2", ⟨2, 7⟩⟩ ∧
      jsGet (mergeAssignments
        (.obj [("7", encodeResource encodeAssignment ⟨100, "assignment", "u", "t1", ⟨1, 7⟩⟩)])
        [⟨100, "assignment", "u", "t2", ⟨2, 7⟩⟩]) "7" ≠
        encodeResource encodeAssignment ⟨100, "assignment", "u", "t1", ⟨1, 7⟩⟩ :=
  merge_overwrites_by_id _ _ ⟨100, "assignment", "u", "t2", ⟨2, 7⟩⟩ rfl
    (by simp [encodeResource, encodeAssignment])

/-- Counterexample for C6 as stated: the first `setCache` does not always
write.  Writing the empty object to an absent key performs zero durable
writes (its serialization equals the `{}` that `setCache` substitutes for an
absent entry), and writing `null` twice performs two durable writes (a
stored `null` is falsy, so the comparison again substitutes `{}`). -/
theorem setCache_write_counterexample :
    (setCache "k" (.obj []) emptyCache = emptyCache ∧
      (setCache "k" (.obj []) emptyCache).writes = []) ∧
    (setCache "k" .null (setCache "k" .null emptyCache)).writes.length = 2 :=
  ⟨⟨rfl, rfl⟩, by decide⟩

/-- C6 (amended): for every key `k` and truthy value `v`, calling `setCache`
twice in a row with the same value results in at most one durable write —
the first call writes only when the new serialization differs from the
stored one (or from `{}` when the entry is absent or falsy), and the second
call is always a no-op. -/
theorem setCache_second_write_suppressed (s : CacheState) (k : String)
    (v : JValue) (hv : jsTruthy v = true) :
    setCache k v (setCache k v s) = setCache k v s ∧
    (setCache k v s).writes.length ≤ s.writes.length + 1 := by
  by_cases h : stringifyVal (jsOrEmpty (lookupMem s k)) = stringifyVal v
  · have h1 := setCache_noop k v s h
    constructor
    · simp only [h1]
    · rw [h1]
      omega
  · have hl : lookupMem (setCache k v s) k = some v :=
      lookupMem_setCache_self_of_write k v s h
    constructor
    · apply setCache_noop
      rw [hl]
      simp [jsOrEmpty, hv]
    · rw [setCache_write k v s h]
      simp

/-- Witness for C6 (amended): a concrete truthy value written twice from the
empty state yields exactly one durable write and an idempotent second call. -/
theorem setCache_second_write_suppressed_witness :
    setCache "k" (.num 1) (setCache "k" (.num 1) emptyCache) =
        setCache "k" (.num 1) emptyCache ∧
      (setCache "k" (.num 1) emptyCache).writes.length ≤
        emptyCache.writes.length + 1 :=
  setCache_second_write_suppressed emptyCache "k" (.num 1) rfl

/-- Counterexample for C7 as stated: initializing an absent key with the
default `{}` returns the default but persists nothing — neither the
in-memory view nor the durable store changes, because `setCache` compares
the new value against `{}` for an absent entry. -/
theorem getOrInitializeCache_counterexample :
    lookupMem emptyCache "k" = none ∧
    getOrInitializeCache "k" (pureInit (.obj [])) emptyCache =
      (.ok (.obj []), emptyCache, []) ∧
    lookupMem (getOrInitializeCache "k" (pureInit (.obj [])) emptyCache).2.1
      "k" = none :=
  ⟨rfl, rfl, rfl⟩

/-- C7 (amended): `getOrInitializeCache` returns the cached value when one
is present (and not null/undefined) without running the initializer at all;
when the key is absent it computes the default, returns it, and persists it
both in-memory and durably provided the default's serialization differs
from `{}` (the serialization `setCache` substitutes for the absent old
entry). -/
theorem getOrInitializeCache_behavior (s : CacheState) (k : String)
    (v d : JValue) :
    (lookupMem s k = some v → jsLooseUndef v = false →
      ∀ init, getOrInitializeCache k init s = (.ok v, s, [])) ∧
    (lookupMem s k = none → stringifyVal d ≠ some emptyObjJson →
      getOrInitializeCache k (pureInit d) s = (.ok d, setCache k d s, []) ∧
      lookupMem (setCache k d s) k = some d ∧
      (setCache k d s).writes =
        s.writes ++ [(k, (stringifyVal d).getD "undefined")]) := by
  constructor
  · intro hl hu init
    unfold getOrInitializeCache
    rw [hl]
    simp [hu]
  · intro hl hd
    have hne : stringifyVal (jsOrEmpty (lookupMem s k)) ≠ stringifyVal d := by
      rw [hl]
      intro h
      exact hd h.symm
    exact ⟨gi_pure_none k d s hl, lookupMem_setCache_self_of_write k d s hne,
      by rw [setCache_write k d s hne]⟩

/-- Witness for C7 (amended): a concrete hit returns the cached value with
no effects; a concrete miss persists the non-empty default in memory and on
disk. -/
theorem getOrInitializeCache_behavior_witness :
    getOrInitializeCache "k" (pureInit (.num 5))
        ⟨[("k", .num 3)], [("k", .num 3)], []⟩ =
      (.ok (.num 3), ⟨[("k", .num 3)], [("k", .num 3)], []⟩, []) ∧
    (getOrInitializeCache "k" (pureInit (.num 5)) emptyCache =
        (.ok (.num 5), setCache "k" (.num 5) emptyCache, []) ∧
      lookupMem (setCache "k" (.num 5) emptyCache) "k" = some (.num 5) ∧
      (setCache "k" (.num 5) emptyCache).writes =
        emptyCache.writes ++ [("k", (stringifyVal (.num 5)).getD "undefined")]) :=
  ⟨(getOrInitializeCache_behavior ⟨[("k", .num 3)], [("k", .num 3)], []⟩ "k"
      (.num 3) (.num 5)).1 rfl rfl (pureInit (.num 5)),
    (getOrInitializeCache_behavior emptyCache "k" (.num 3) (.num 5)).2 rfl
      (by decide)⟩

theorem asgFetchPhase_full_first_req (srv : Server) (fuel : Nat)
    (subjectIds : List Nat) (oldA joined : JValue) (s : CacheState) :
    (asgFetchPhase srv fuel subjectIds .null oldA joined s []).trace.head? =
      some (asgFullReq joined) := by
  unfold asgFetchPhase
  rw [if_neg (by simp [jsTruthy])]
  cases hf : srv.assignments (asgFullReq joined) with
  | error e => rfl
  | ok o =>
    cases o with
    | none => rfl
    | some coll =>
      rcases hu : unwrapCollection srv.assignments fuel coll with ⟨ur, utr⟩
      simp only []
      rw [hu]
      cases ur with
      | error e => rfl
      | ok recs => rfl

/-- C3: for every call to the assignments sync with a non-empty set of
needed ids, if any needed id is absent from the cached merged collection
even though a watermark exists, the sync issues a full (unwatermarked)
fetch — `asgFullReq`, which carries no `updated_after` filter and no
conditional header — not a delta fetch. -/
theorem missing_id_forces_full_fetch (srv : Server) (fuel : Nat)
    (subjectIds : List Nat) (s0 : CacheState) (t : String)
    (fields : List (String × JValue)) (i : Nat)
    (hmem : i ∈ subjectIds)
    (hmissing : jsHas (.obj fields) (toString i) = false)
    (hwm : lookupMem s0 "AssignmentsDate" = some (dateWrap (.str t)))
    (hm : lookupMem s0 "Assignments" = some (.obj fields)) :
    (getAssignments srv fuel subjectIds s0).trace.head? =
      some (asgFullReq (joinIds (dedupFirst
        (subjectIds ++ (jsKeys (.obj fields)).map parseNat)))) := by
  have hlen : (subjectIds.length == 0) = false := by
    cases subjectIds with
    | nil => exact absurd hmem (by simp)
    | cons a l => rfl
  have h1 := gi_pure_some "AssignmentsDate" dateDefault (dateWrap (.str t)) s0 hwm rfl
  have h2 := gi_pure_some "Assignments" (.obj []) (.obj fields) s0 hm rfl
  have hall : (subjectIds.all fun id => jsHas (JValue.obj fields) (toString id)) =
      false :=
    List.all_eq_false.mpr ⟨i, hmem, by simp [hmissing]⟩
  unfold getAssignments
  rw [if_neg (by simp [hlen])]
  simp only [h1, h2, hall, Bool.false_eq_true, if_false]
  exact asgFetchPhase_full_first_req srv fuel subjectIds (.obj fields) _ s0

/-- Witness for C3: watermark "T0" with cached ids 1 and 2, requested ids
1, 2 and 3 — the first request is the full fetch. -/
theorem missing_id_forces_full_fetch_witness :
    (getAssignments failingServer 5 [1, 2, 3]
        ⟨[("AssignmentsDate", dateWrap (.str "T0")),
          ("Assignments", .obj [("1", .num 1), ("2", .num 2)])], [], []⟩).trace.head? =
      some (asgFullReq (joinIds (dedupFirst
        ([1, 2, 3] ++
          (jsKeys (.obj [("1", .num 1), ("2", .num 2)])).map parseNat)))) :=
  missing_id_forces_full_fetch failingServer 5 [1, 2, 3] _ "T0"
    [("1", .num 1), ("2", .num 2)] 3 (by simp) (by decide) rfl rfl

/-- C9 is a code bug: `main` (src/main.ts lines 293-369) awaits every sync
with no try/catch and `main()` is invoked without a rejection handler, so —
contrary to the claim and to the spec's propagation policy — a failed
review-statistics sync aborts the whole run: here the rejection propagates
out of `mainModel` after the single review-statistics request, no
assignments sync or subject fetch ever executes, and the run produces no
output; only the cache state survives unscathed. -/
theorem main_aborts_on_sync_failure :
    mainModel failingServer 5 [] = (.error (), ⟨[], [], []⟩, [rsFullReq]) := rfl

theorem rsFetchPhase_delta_first_req (srv : Server) (fuel : Nat)
    (d0 m : JValue) (s : CacheState) (hd : jsTruthy d0 = true) :
    (rsFetchPhase srv fuel d0 m s []).trace.head? = some (rsDeltaReq d0) := by
  unfold rsFetchPhase
  rw [if_pos hd]
  cases hf : srv.reviewStats (rsDeltaReq d0) with
  | error e => rfl
  | ok o =>
    cases o with
    | none => rfl
    | some coll =>
      rcases hu : unwrapCollection srv.reviewStats fuel coll with ⟨ur, utr⟩
      simp only []
      rw [hu]
      cases ur with
      | error e => rfl
      | ok recs => rfl

theorem asgFetchPhase_delta_first_req (srv : Server) (fuel : Nat)
    (subjectIds : List Nat) (d1 oldA joined : JValue) (s : CacheState)
    (hd : jsTruthy d1 = true) :
    (asgFetchPhase srv fuel subjectIds d1 oldA joined s []).trace.head? =
      some (asgDeltaReq d1 joined) := by
  unfold asgFetchPhase
  rw [if_pos hd]
  cases hf : srv.assignments (asgDeltaReq d1 joined) with
  | error e => rfl
  | ok o =>
    cases o with
    | none => rfl
    | some coll =>
      rcases hu : unwrapCollection srv.assignments fuel coll with ⟨ur, utr⟩
      simp only []
      rw [hu]
      cases ur with
      | error e => rfl
      | ok recs => rfl

/-- Counterexample for C4 as stated: the draft assignments sync
(src/unnamed/part_000) starts with watermark "T0" present, yet its one
request carries `updated_after` without any `If-Modified-Since` header. -/
theorem assignmentsV0_no_conditional_header :
    (getAssignmentsV0 failingServer 5 [1] false
        ⟨[("AssignmentsDate", dateWrap (.str "T0")),
          ("Assignments", .obj [("1", .num 1)])], [], []⟩).trace =
      [asgV0Req (.str "T0")] ∧
    (asgV0Req (.str "T0")).params = [("updated_after", .str "T0")] ∧
    (asgV0Req (.str "T0")).ifModifiedSince = none :=
  ⟨rfl, rfl, rfl⟩

/-- C4 (amended): with a watermark present, `getReviewStatistics` and —
when every requested id is already cached — `getAssignments` issue a first
request carrying both `updated_after` = watermark and `If-Modified-Since` =
watermark; the draft assignments sync of part_000 issues its delta request
with `updated_after` but with no conditional header. -/
theorem watermark_request_shape (srv : Server) (fuel : Nat)
    (subjectIds : List Nat) (s0 : CacheState) (t : String)
    (fields : List (String × JValue)) (ht : t ≠ "") :
    (lookupMem s0 "reviewStatsDate" = some (dateWrap (.str t)) →
      (getReviewStatistics srv fuel s0).trace.head? =
        some (rsDeltaReq (.str t)) ∧
      (rsDeltaReq (.str t)).params = [("updated_after", .str t)] ∧
      (rsDeltaReq (.str t)).ifModifiedSince = some (.str t)) ∧
    (subjectIds ≠ [] →
      lookupMem s0 "AssignmentsDate" = some (dateWrap (.str t)) →
      lookupMem s0 "Assignments" = some (.obj fields) →
      (subjectIds.all fun id => jsHas (.obj fields) (toString id)) = true →
      (getAssignments srv fuel subjectIds s0).trace.head? =
        some (asgDeltaReq (.str t) (joinIds (dedupFirst
          (subjectIds ++ (jsKeys (.obj fields)).map parseNat)))) ∧
      ∀ joined, (asgDeltaReq (.str t) joined).ifModifiedSince = some (.str t)) ∧
    (lookupMem s0 "AssignmentsDate" = some (dateWrap (.str t)) →
      lookupMem s0 "Assignments" = some (.obj fields) →
      (getAssignmentsV0 srv fuel subjectIds true s0).trace.head? =
        some (asgV0Req (.str t)) ∧
      (asgV0Req (.str t)).params = [("updated_after", .str t)] ∧
      (asgV0Req (.str t)).ifModifiedSince = none) := by
  have htr : jsTruthy (JValue.str t) = true := by
    simp only [jsTruthy, Bool.not_eq_true']
    exact Bool.eq_false_iff.mpr (fun h => ht ((String.isEmpty_iff t).mp h))
  refine ⟨?_, ?_, ?_⟩
  · intro hwm
    refine ⟨?_, rfl, rfl⟩
    have h1 := gi_pure_some "reviewStatsDate" dateDefault (dateWrap (.str t)) s0
      hwm rfl
    obtain ⟨v2, h2⟩ := gi_pure_default "reviewStats" (.obj []) s0 rfl
    unfold getReviewStatistics
    simp only [h1, h2]
    rw [show (if jsTruthy (dateWrap (.str t)) = true then
          jsGet (dateWrap (.str t)) "date" else dateWrap (.str t)) = .str t from rfl]
    exact rsFetchPhase_delta_first_req srv fuel (.str t) v2 s0 htr
  · intro hne hwm hm hall
    refine ⟨?_, fun joined => rfl⟩
    have hlen : (subjectIds.length == 0) = false := by
      cases subjectIds with
      | nil => exact absurd rfl hne
      | cons a l => rfl
    have h1 := gi_pure_some "AssignmentsDate" dateDefault (dateWrap (.str t)) s0
      hwm rfl
    have h2 := gi_pure_some "Assignments" (.obj []) (.obj fields) s0 hm rfl
    unfold getAssignments
    rw [if_neg (by simp [hlen])]
    simp only [h1, h2, hall, if_true]
    rw [show (if jsTruthy (dateWrap (.str t)) = true then
          jsGet (dateWrap (.str t)) "date" else dateWrap (.str t)) = .str t from rfl]
    exact asgFetchPhase_delta_first_req srv fuel subjectIds (.str t) (.obj fields)
      _ s0 htr
  · intro hwm hm
    have h1 := gi_pure_some "AssignmentsDate" dateDefault (dateWrap (.str t)) s0
      hwm rfl
    have h2 := gi_pure_some "Assignments" (.obj []) (.obj fields) s0 hm rfl
    refine ⟨?_, by simp [asgV0Req, htr], rfl⟩
    unfold getAssignmentsV0
    rw [if_neg (by simp)]
    simp only [h1, h2]
    rw [show jsGet (dateWrap (.str t)) "date" = .str t from rfl]
    cases hf : srv.assignmentsV0 (asgV0Req (.str t)) with
    | error e => rfl
    | ok o =>
      cases o with
      | none => rfl
      | some coll =>
        rcases hu : unwrapCollection srv.assignmentsV0 fuel coll with ⟨ur, utr⟩
        simp only []
        rw [hu]
        cases ur with
        | error e => rfl
        | ok recs => rfl

/-- A warm cache (both collections synced at watermark "T0") used by the
request-shape witness. -/
def warmCache : CacheState :=
  ⟨[("reviewStatsDate", dateWrap (.str "T0")),
    ("reviewStats", .obj [("5", .num 5)]),
    ("AssignmentsDate", dateWrap (.str "T0")),
    ("Assignments", .obj [("1", .num 1)])], [], []⟩

/-- Witness for C4 (amended): the concrete first requests at watermark "T0". -/
theorem watermark_request_shape_witness :
    ((getReviewStatistics failingServer 5 warmCache).trace.head? =
        some (rsDeltaReq (.str "T0")) ∧
      (rsDeltaReq (.str "T0")).params = [("updated_after", .str "T0")] ∧
      (rsDeltaReq (.str "T0")).ifModifiedSince = some (.str "T0")) ∧
    ((getAssignments failingServer 5 [1] warmCache).trace.head? =
        some (asgDeltaReq (.str "T0") (joinIds (dedupFirst
          ([1] ++ (jsKeys (.obj [("1", .num 1)])).map parseNat)))) ∧
      ∀ joined, (asgDeltaReq (.str "T0") joined).ifModifiedSince =
        some (.str "T0")) ∧
    ((getAssignmentsV0 failingServer 5 [1] true warmCache).trace.head? =
        some (asgV0Req (.str "T0")) ∧
      (asgV0Req (.str "T0")).params = [("updated_after", .str "T0")] ∧
      (asgV0Req (.str "T0")).ifModifiedSince = none) := by
  have h := watermark_request_shape failingServer 5 [1] warmCache "T0"
    [("1", .num 1)] (by simp)
  exact ⟨h.1 rfl, h.2.1 (by simp) rfl rfl (by decide), h.2.2 rfl rfl⟩

theorem stringify_dateWrap_str_ne_empty (t : String) :
    stringifyVal (dateWrap (JValue.str t)) ≠ some emptyObjJson := by
  intro h
  have h2 : "\x7b" ++ ("\"" ++ escapeJson "date" ++ "\":" ++
      ("\"" ++ escapeJson t ++ "\"")) ++ "\x7d" = emptyObjJson :=
    Option.some.inj h
  have h3 := congrArg String.length h2
  simp only [String.length_append] at h3
  rw [show ("\x7b" : String).length = 1 from rfl,
    show ("\x7d" : String).length = 1 from rfl,
    show ("\"" : String).length = 1 from rfl,
    show ("\":" : String).length = 2 from rfl,
    show (escapeJson "date").length = 4 from rfl,
    show emptyObjJson.length = 2 from rfl] at h3
  omega

/-- C5: on a first page, `unwrapCollection` returns the concatenation, in
page order, of the `data` arrays of all pages reached by following each
page's `next_url` link until a page has no link, every follow-up page
request carrying no conditional header; and the calling sync
(`getAssignments`, first run) adopts as the new watermark the
`data_updated_at` timestamp reported on the first page. -/
theorem pagination_concat_and_watermark (srv : Server) (fuel : Nat)
    (subjectIds : List Nat) (s0 : CacheState) (p1 : Collection Assignment)
    (rest : List (Collection Assignment)) (hne : subjectIds ≠ [])
    (hwm : lookupMem s0 "AssignmentsDate" = none)
    (hm : lookupMem s0 "Assignments" = none)
    (hfetch : srv.assignments (asgFullReq (joinIds (dedupFirst
        (subjectIds ++ (jsKeys (.obj [])).map parseNat)))) = .ok (some p1))
    (hchain : Chain srv.assignments p1 rest) (hfuel : rest.length < fuel) :
    (∃ utr, unwrapCollection srv.assignments fuel p1 =
        (.ok (p1.data ++ rest.flatMap (fun p => p.data)), utr) ∧
      ∀ r ∈ utr, r.ifModifiedSince = none) ∧
    lookupMem (getAssignments srv fuel subjectIds s0).state "AssignmentsDate" =
      some (dateWrap (.str p1.data_updated_at)) := by
  obtain ⟨utr, hu, hutr⟩ :=
    unwrapCollection_chain srv.assignments p1 rest fuel hchain hfuel
  refine ⟨⟨utr, hu, hutr⟩, ?_⟩
  have hwrite : lookupMem
      (setCache "AssignmentsDate" (dateWrap (.str p1.data_updated_at)) s0)
      "AssignmentsDate" = some (dateWrap (.str p1.data_updated_at)) := by
    apply lookupMem_setCache_self_of_write
    rw [hwm]
    intro h
    exact stringify_dateWrap_str_ne_empty p1.data_updated_at h.symm
  have hlen : (subjectIds.length == 0) = false := by
    cases subjectIds with
    | nil => exact absurd rfl hne
    | cons a l => rfl
  have hs1 : setCache "AssignmentsDate" dateDefault s0 = s0 :=
    setCache_noop _ _ _ (by rw [hwm]; rfl)
  have hs2 : setCache "Assignments" (.obj []) s0 = s0 :=
    setCache_noop _ _ _ (by rw [hm]; rfl)
  have h1 : getOrInitializeCache "AssignmentsDate" (pureInit dateDefault) s0 =
      (.ok dateDefault, s0, []) := by
    rw [gi_pure_none _ _ _ hwm, hs1]
  have h2 : getOrInitializeCache "Assignments" (pureInit (.obj [])) s0 =
      (.ok (.obj []), s0, []) := by
    rw [gi_pure_none _ _ _ hm, hs2]
  obtain ⟨x, hx⟩ := List.exists_mem_of_ne_nil subjectIds hne
  have hall : (subjectIds.all fun id => jsHas (JValue.obj []) (toString id)) =
      false :=
    List.all_eq_false.mpr ⟨x, hx, by simp [jsHas]⟩
  unfold getAssignments
  rw [if_neg (by simp [hlen])]
  simp only [h1, h2, hall, Bool.false_eq_true, if_false]
  unfold asgFetchPhase
  rw [if_neg (by simp [jsTruthy])]
  rw [hfetch]
  simp only []
  rw [hu]
  simp only []
  unfold asgFinish
  simp only []
  rw [lookupMem_setCache_ne "Assignments" "AssignmentsDate" _ _ rfl]
  exact hwrite

/-- Second page of a concrete chain: no further link. -/
def chainPage2 : Collection Assignment :=
  ⟨"collection", "u2", ⟨none, none, 500⟩, 4, "TS1",
    [⟨103, "assignment", "", "t", ⟨2, 3⟩⟩, ⟨104, "assignment", "", "t", ⟨1, 4⟩⟩]⟩

/-- First page of a concrete chain: links to the second page through a full
`next_url` carrying the base URL. -/
def chainPage1 : Collection Assignment :=
  ⟨"collection", "u1",
    ⟨some (WaniKaniURL ++ "assignments?page_after_id=2"), none, 500⟩, 4, "TS1",
    [⟨101, "assignment", "", "t", ⟨1, 1⟩⟩, ⟨102, "assignment", "", "t", ⟨4, 2⟩⟩]⟩

/-- A server serving the concrete two-page chain on its assignments
endpoint. -/
def chainServer : Server :=
  ⟨fun req =>
      if req.path == "assignments?page_after_id=2" then .ok (some chainPage2)
      else .ok (some chainPage1),
    fun _ => .ok none, fun _ => .ok none, fun _ => .ok none⟩

/-- Witness for C5: the concrete two-page chain is concatenated in page
order, its follow-up request is unconditional, and the watermark "TS1" from
page one is adopted. -/
theorem pagination_concat_and_watermark_witness :
    (∃ utr, unwrapCollection chainServer.assignments 5 chainPage1 =
        (.ok (chainPage1.data ++ [chainPage2].flatMap (fun p => p.data)), utr) ∧
      ∀ r ∈ utr, r.ifModifiedSince = none) ∧
    lookupMem (getAssignments chainServer 5 [1, 2, 3, 4] emptyCache).state
      "AssignmentsDate" = some (dateWrap (.str chainPage1.data_updated_at)) :=
  pagination_concat_and_watermark chainServer 5 [1, 2, 3, 4] emptyCache
    chainPage1 [chainPage2] (by simp) rfl rfl rfl
    (Chain.step chainPage1 (WaniKaniURL ++ "assignments?page_after_id=2")
      chainPage2 [] rfl rfl (Chain.last chainPage2 rfl))
    (by simp)
